import Mathlib

/-!
Verification of the image-scraper pipeline (`imghunt/scraper.py`).

The Python source is shallowly embedded below.  External collaborators
(the `validators` library, `httpx`, PIL decoding, Playwright, the file
system) are passed in as function parameters; everything that is code of
the repository (`check_slashes`, `check_link_validity`,
`check_nested_links`, `download_images`, `save_images`, the `scraper`
pipeline) is translated statement by statement.  Python exceptions that
escape the code (the IndexError in `check_link_validity`) are modelled by
`Option`: a `none` result means the run aborts with an uncaught exception.

Python string primitives used by the source (`str.count`, `str.replace`,
`str.split`, `str.startswith`) are re-implemented on `List Char` with the
exact CPython semantics (non-overlapping left-to-right scanning), so that
every definition evaluates by kernel reduction.
-/

namespace ImgHunt

/-- Python `s.startswith(pat)` on character lists: `listStartsWith pat s`. -/
def listStartsWith : List Char → List Char → Bool
  | [], _ => true
  | _ :: _, [] => false
  | p :: ps, c :: cs => p == c && listStartsWith ps cs

/-- Python `link.count("//")`: number of non-overlapping occurrences of
`//`, scanning left to right. -/
def countPairSlash : List Char → Nat
  | [] => 0
  | [_] => 0
  | c :: d :: rest =>
    if c = '/' ∧ d = '/' then 1 + countPairSlash rest
    else countPairSlash (d :: rest)

/-- Python `link.replace("://", "::")`: every non-overlapping occurrence of
`://` becomes `::`, scanning left to right. -/
def protectScheme : List Char → List Char
  | [] => []
  | [c] => [c]
  | [c, d] => [c, d]
  | c :: d :: e :: rest =>
    if c = ':' ∧ d = '/' ∧ e = '/' then ':' :: ':' :: protectScheme rest
    else c :: protectScheme (d :: e :: rest)

/-- Python `link.replace("//", "/")`: every non-overlapping occurrence of
`//` becomes `/`, scanning left to right. -/
def collapseSlashes : List Char → List Char
  | [] => []
  | [c] => [c]
  | c :: d :: rest =>
    if c = '/' ∧ d = '/' then '/' :: collapseSlashes rest
    else c :: collapseSlashes (d :: rest)

/-- Python `link.replace("::", "://")`: every non-overlapping occurrence of
`::` becomes `://`, scanning left to right. -/
def restoreScheme : List Char → List Char
  | [] => []
  | [c] => [c]
  | c :: d :: rest =>
    if c = ':' ∧ d = ':' then ':' :: '/' :: '/' :: restoreScheme rest
    else c :: restoreScheme (d :: rest)

/-- Function `check_slashes` (scraper.py lines 159-162): if the link contains more
than one `//`, apply
`link.replace("://", "::").replace("//", "/").replace("::", "://")`. -/
def check_slashes (link : String) : String :=
  if countPairSlash link.data > 1 then
    String.mk (restoreScheme (collapseSlashes (protectScheme link.data)))
  else link

/-- Outcome of one iteration of the correction loop in
`check_link_validity`: the link was accepted, the iteration raised an
uncaught IndexError, or the loop continues with a (possibly corrected)
link. -/
inductive PassOutcome where
  | valid (link : String)
  | crash
  | next (link : String)
deriving Repr, DecidableEq

/-- The base prepended to a root-relative link in pass 1 of
`check_link_validity` (scraper.py lines 147-151): the canonical URL when
one was found, otherwise the originally queried page URL. -/
def baseURL (query : String) (canonical_url : Option String) : String :=
  match canonical_url with
  | none => query
  | some cu => cu

/-- The correction applied at iteration `i` of the loop in
`check_link_validity` (scraper.py lines 140-151).  `none` models the
uncaught IndexError raised by `link[0]` / `link[1]` on links of length 0,
or of length 1 starting with `/`. -/
def applyCorrection (query : String) (canonical_url : Option String)
    (i : Nat) (link : String) : Option String :=
  if i = 0 then
    some (if listStartsWith ['/', '/'] link.data then "https:" ++ link else link)
  else if i = 1 then
    match link.data with
    | [] => none
    | c :: cs =>
      if c = '/' then
        match cs with
        | [] => none
        | c2 :: _ =>
          if c2 = '/' then some link
          else some (baseURL query canonical_url ++ link)
      else some link
  else some link

/-- One iteration of the inner `for i in range(max_checks)` loop of
`check_link_validity`: slash pre-check, validity test, then correction. -/
def passIter (validURL : String → Bool) (query : String)
    (canonical_url : Option String) (i : Nat) (link : String) : PassOutcome :=
  let link2 := check_slashes link
  if validURL link2 then PassOutcome.valid link2
  else
    match applyCorrection query canonical_url i link2 with
    | none => PassOutcome.crash
    | some link3 => PassOutcome.next link3

/-- Processing of a single raw link by `check_link_validity`
(scraper.py lines 129-154): up to three iterations (`max_checks = 3`),
early exit on validity, and the `for`/`else` clause that records
`["First Pass - Invalid Link", link]` when no iteration broke out.
`none` models the uncaught IndexError. -/
def processLink (validURL : String → Bool) (query : String)
    (canonical_url : Option String) (link : String) :
    Option (Sum String (List String)) :=
  match passIter validURL query canonical_url 0 link with
  | PassOutcome.valid l => some (Sum.inl l)
  | PassOutcome.crash => none
  | PassOutcome.next l1 =>
    match passIter validURL query canonical_url 1 l1 with
    | PassOutcome.valid l => some (Sum.inl l)
    | PassOutcome.crash => none
    | PassOutcome.next l2 =>
      match passIter validURL query canonical_url 2 l2 with
      | PassOutcome.valid l => some (Sum.inl l)
      | PassOutcome.crash => none
      | PassOutcome.next l3 => some (Sum.inr ["First Pass - Invalid Link", l3])

/-- Function `check_link_validity` (scraper.py lines 122-155).  The external
`valid_url` predicate (a thin wrapper around `validators.url`) is a
parameter.  Returns `(valid_links, error_links)`; `none` models the whole
call raising the uncaught IndexError from one of the links. -/
def check_link_validity (validURL : String → Bool) (raw_links : List String)
    (query : String) (canonical_url : Option String) :
    Option (List String × List (List String)) :=
  match raw_links with
  | [] => some ([], [])
  | link :: rest =>
    match processLink validURL query canonical_url link with
    | none => none
    | some r =>
      match check_link_validity validURL rest query canonical_url with
      | none => none
      | some (vs, es) =>
        match r with
        | Sum.inl v => some (v :: vs, es)
        | Sum.inr e => some (vs, e :: es)

/-- Python `link.replace(",", "")`: remove every comma. -/
def removeCommas : List Char → List Char
  | [] => []
  | c :: rest => if c = ',' then removeCommas rest else c :: removeCommas rest

/-- Python `s.split(" ")`: split on every single space, keeping empty
pieces (CPython semantics of `str.split` with an explicit separator). -/
def splitOnSpace : List Char → List (List Char)
  | [] => [[]]
  | c :: rest =>
    match splitOnSpace rest with
    | [] => [[]]
    | w :: ws => if c = ' ' then [] :: w :: ws else (c :: w) :: ws

/-- The `for idx, link in enumerate(links)` loop of `check_nested_links`
(scraper.py lines 94-98), including the CPython iterator semantics of
`links.pop(idx)` while iterating: the list iterator keeps its own cursor,
so after a `pop` the element that moved into the popped slot is skipped.
`fuel` is initialised to the length of the list, which bounds the number
of iterations (the cursor advances by one per iteration and the list
never grows), so the `fuel = 0` base case coincides with the exit
condition of the loop. -/
def checkNestedLoop (validURL : String → Bool) :
    Nat → Nat → List String → List String → List String × List String
  | 0, _, links, url_filter => (links, url_filter)
  | fuel + 1, idx, links, url_filter =>
    if h : idx < links.length then
      let link := links.get ⟨idx, h⟩
      if link.data.contains ' ' then
        checkNestedLoop validURL fuel (idx + 1) (links.eraseIdx idx)
          (url_filter ++
            ((splitOnSpace (removeCommas link.data)).map String.mk).filter validURL)
      else checkNestedLoop validURL fuel (idx + 1) links url_filter
    else (links, url_filter)

/-- Function `check_nested_links` (scraper.py lines 79-100): values containing a
space are popped during iteration, commas removed, split on spaces, and
each token re-added only if it passes the URL validator. -/
def check_nested_links (validURL : String → Bool) (links : List String) :
    List String :=
  if links.any (fun l => l.data.contains ' ') then
    let r := checkNestedLoop validURL links.length 0 links []
    r.1 ++ r.2
  else links

/-- Function `get_request` (scraper.py lines 27-36).  The external `httpx.get` +
`raise_for_status` pair is the parameter `httpGet` (`ok` = response body,
`error` = exception text).  On failure the function returns the
single-element message list instead of a response — the `Sum.inr` side. -/
def get_request (httpGet : String → Except String String) (query : String) :
    Sum String (List String) :=
  match httpGet query with
  | Except.ok body => Sum.inl body
  | Except.error e => Sum.inr ["Error accessing URL: " ++ e]

/-- The text of the CPython AttributeError raised by `r.content` in
`download_images` when `get_request` returned its error list. -/
def attrErrMsg : String :=
  "\x27list\x27 object has no attribute \x27content\x27"

/-- The `for idx, link in enumerate(valid_links, start=1)` loop of
`download_images` (scraper.py lines 179-188).  `decodeImage` models
`Image.open(BytesIO(bytes))` followed by `.format` (`ok` = detected
format, `error` = exception text).  Result entries keep the ordinal
explicit: `(ordinal, filename, link)`; error entries are
`[exception-text, link]`.  When `get_request` returns its error list,
the attribute access `r.content` raises, and the `except` clause records
`attrErrMsg`. -/
def downloadAux (httpGet decodeImage : String → Except String String) :
    Nat → List String → List (Nat × String × String) × List (List String)
  | _, [] => ([], [])
  | idx, link :: rest =>
    let r := downloadAux httpGet decodeImage (idx + 1) rest
    match get_request httpGet link with
    | Sum.inr _ => (r.1, [attrErrMsg, link] :: r.2)
    | Sum.inl content =>
      match decodeImage content with
      | Except.error msg => (r.1, [msg, link] :: r.2)
      | Except.ok fmt =>
        ((idx, "IMG_" ++ toString idx ++ "." ++ fmt, link) :: r.1, r.2)

/-- Function `download_images` (scraper.py lines 165-189): the results dict as an
insertion-ordered list of `(filename, link)` pairs (the PIL object itself
is opaque and omitted), plus the error list. -/
def download_images (httpGet decodeImage : String → Except String String)
    (valid_links : List String) :
    List (String × String) × List (List String) :=
  let r := downloadAux httpGet decodeImage 1 valid_links
  (r.1.map (fun e => (e.2.1, e.2.2)), r.2)

/-- The list of filename ordinals of the successfully downloaded images,
in production order. -/
def producedOrdinals (httpGet decodeImage : String → Except String String)
    (valid_links : List String) : List Nat :=
  ((downloadAux httpGet decodeImage 1 valid_links).1).map (fun e => e.1)

/-- Function `save_images` (scraper.py lines 207-231): `saveFn` models
`img_object.save(filepath)` (`error` = exception text).  Returns the
success count and the error list. -/
def save_images (saveFn : String → Except String Unit)
    (images : List (String × String)) : Nat × List (List String) :=
  match images with
  | [] => (0, [])
  | (filename, url) :: rest =>
    let r := save_images saveFn rest
    match saveFn filename with
    | Except.ok _ => (r.1 + 1, r.2)
    | Except.error exc => (r.1, [exc, url] :: r.2)

/-- The success-shaped result dict built by `scraper`
(scraper.py lines 286-294).  The two directory fields are filesystem
paths derived from `os.getcwd()` and are not modelled. -/
structure RunResult where
  num_raw_links : Nat
  num_dl_images : Nat
  num_errors : Nat
  error_links : List (List String)
  filename : String
deriving Repr, DecidableEq

/-- The `scraper` pipeline (scraper.py lines 234-294) from the point where
the raw links of the static parse are in hand.  The earlier steps
(`check_url`, the page-level `get_request`, `parse_html`,
`get_canonical_url`, `get_raw_image_links`) only produce the parameters
`query`, `canonical_url` and `static_raw_links`; `playwrightLinks` is the
value `run_playwright` would return; `ts` is the timestamp used by
`create_folder`.  `os.mkdir` and `shutil.make_archive` are unconditional
in the source once this point is reached, so reaching the `Sum.inr`
result means an archive was produced.  The second component of the
returned pair records whether `run_playwright` was invoked.  `none`
models the run aborting with the uncaught IndexError of
`check_link_validity`. -/
def scraperCore (validURL : String → Bool)
    (httpGet decodeImage : String → Except String String)
    (saveFn : String → Except String Unit)
    (playwrightLinks : List String) (ts : String)
    (query : String) (canonical_url : Option String)
    (static_raw_links : List String) :
    Option (Sum (List String) RunResult × Bool) :=
  let num_raw_links := static_raw_links.length
  if num_raw_links = 0 then
    some (Sum.inl ["Unable to access images at " ++ query], false)
  else
    let usedFallback := decide (num_raw_links < 5)
    let raw_links := if usedFallback = true then playwrightLinks else static_raw_links
    match check_link_validity validURL raw_links query canonical_url with
    | none => none
    | some (valid_links, error_links) =>
      let dl := download_images httpGet decodeImage valid_links
      let error_links2 := error_links ++ dl.2
      let sv := save_images saveFn dl.1
      let error_links3 := error_links2 ++ sv.2
      some (Sum.inr
        { num_raw_links := num_raw_links
          num_dl_images := sv.1
          num_errors := error_links3.length
          error_links := error_links3
          filename := "IMGHUNT_" ++ ts }, usedFallback)

/-- Host-part check used by `specValidURL`: nonempty, not starting with a
slash, and containing no space. -/
def hostPartOk : List Char → Bool
  | [] => false
  | c :: rest => c != '/' && !((c :: rest).contains ' ')

/-- Modelled from the spec (section 4.1, URL Validator): the external
`validators.url` predicate is not code of this repository, so the
theorems below take the validator as a parameter.  This executable model
(`http`/`https` scheme plus a nonempty host that does not start with `/`
and contains no space) instantiates witnesses and counterexamples; on
every concrete string used in them it agrees with `validators.url`
(absolute `https://host/...` URLs are accepted, including a duplicated
slash inside the path; relative paths, bare tokens and scheme-less or
host-less strings are rejected). -/
def specValidURL (s : String) : Bool :=
  if listStartsWith "https://".data s.data then hostPartOk (s.data.drop 8)
  else if listStartsWith "http://".data s.data then hostPartOk (s.data.drop 7)
  else false

/-! Concrete fixtures used by witnesses and counterexamples. -/

/-- A per-image fetch that always succeeds. -/
def okGet : String → Except String String := fun _ => Except.ok "bytes"

/-- An image decode that always succeeds with format `PNG`. -/
def okDecode : String → Except String String := fun _ => Except.ok "PNG"

/-- An image save that always succeeds. -/
def okSave : String → Except String Unit := fun _ => Except.ok ()

/-- Three raw links: below the `MIN_LINKS = 5` threshold, so the
Playwright fallback replaces them. -/
def cexStatic3 : List String :=
  ["https://a.example/1.png", "https://a.example/2.png", "https://a.example/3.png"]

/-- Five raw links: at the threshold, so the fallback is bypassed. -/
def cexStatic5 : List String :=
  ["https://a.example/1.png", "https://a.example/2.png", "https://a.example/3.png",
   "https://a.example/4.png", "https://a.example/5.png"]

/-- Six valid links returned by the rendering fallback. -/
def cexPlaywright6 : List String :=
  ["https://b.example/1.png", "https://b.example/2.png", "https://b.example/3.png",
   "https://b.example/4.png", "https://b.example/5.png", "https://b.example/6.png"]

/-- A per-image fetch where the first of `c7Links` fails at the
transport/status level and every other link succeeds. -/
def c7Fetch : String → Except String String := fun s =>
  if s == "https://a.example/1.png" then Except.error "404 NOT FOUND"
  else Except.ok "bytes"

/-- Two valid links; with `c7Fetch` the first download fails. -/
def c7Links : List String :=
  ["https://a.example/1.png", "https://a.example/2.png"]

/-! Helper lemmas about the character-level string primitives. -/

lemma protectScheme_cons_ne (c : Char) (X : List Char) (h : c ≠ ':') :
    protectScheme (c :: X) = c :: protectScheme X := by
  match X with
  | [] => rfl
  | [d] => rfl
  | d :: e :: Y => simp [protectScheme, h]

lemma protectScheme_append (l r : List Char) (h : ∀ c ∈ l, c ≠ ':') :
    protectScheme (l ++ r) = l ++ protectScheme r := by
  induction l with
  | nil => simp
  | cons c l ih =>
    simp only [List.cons_append]
    rw [protectScheme_cons_ne c _ (h c (List.mem_cons_self c l)),
      ih (fun x hx => h x (List.mem_cons_of_mem c hx))]

lemma protectScheme_sep (s : List Char) :
    protectScheme (':' :: '/' :: '/' :: s) = ':' :: ':' :: protectScheme s := by
  simp [protectScheme]

lemma collapseSlashes_cons_ne (c : Char) (X : List Char) (h : c ≠ '/') :
    collapseSlashes (c :: X) = c :: collapseSlashes X := by
  match X with
  | [] => rfl
  | d :: Y => simp [collapseSlashes, h]

lemma collapseSlashes_append (l r : List Char) (h : ∀ c ∈ l, c ≠ '/') :
    collapseSlashes (l ++ r) = l ++ collapseSlashes r := by
  induction l with
  | nil => simp
  | cons c l ih =>
    simp only [List.cons_append]
    rw [collapseSlashes_cons_ne c _ (h c (List.mem_cons_self c l)),
      ih (fun x hx => h x (List.mem_cons_of_mem c hx))]

lemma collapseSlashes_pair (X : List Char) :
    collapseSlashes ('/' :: '/' :: X) = '/' :: collapseSlashes X := by
  simp [collapseSlashes]

lemma collapseSlashes_slash_ne (d : Char) (X : List Char) (h : d ≠ '/') :
    collapseSlashes ('/' :: d :: X) = '/' :: collapseSlashes (d :: X) := by
  simp only [collapseSlashes]
  rw [if_neg (by simp [h])]

lemma restoreScheme_cons_ne (c : Char) (X : List Char) (h : c ≠ ':') :
    restoreScheme (c :: X) = c :: restoreScheme X := by
  match X with
  | [] => rfl
  | d :: Y => simp [restoreScheme, h]

lemma restoreScheme_append (l r : List Char) (h : ∀ c ∈ l, c ≠ ':') :
    restoreScheme (l ++ r) = l ++ restoreScheme r := by
  induction l with
  | nil => simp
  | cons c l ih =>
    simp only [List.cons_append]
    rw [restoreScheme_cons_ne c _ (h c (List.mem_cons_self c l)),
      ih (fun x hx => h x (List.mem_cons_of_mem c hx))]

lemma restoreScheme_pair (X : List Char) :
    restoreScheme (':' :: ':' :: X) = ':' :: '/' :: '/' :: restoreScheme X := by
  simp [restoreScheme]

lemma countPairSlash_pair (X : List Char) :
    countPairSlash ('/' :: '/' :: X) = 1 + countPairSlash X := by
  simp [countPairSlash]

lemma check_slashes_eq_self (link : String)
    (h : countPairSlash link.data ≤ 1) : check_slashes link = link := by
  unfold check_slashes
  rw [if_neg (by omega)]

/-- Equation for `passIter` with its `let` inlined. -/
lemma passIter_eq (validURL : String → Bool) (query : String)
    (canonical_url : Option String) (i : Nat) (link : String) :
    passIter validURL query canonical_url i link
      = if validURL (check_slashes link) then PassOutcome.valid (check_slashes link)
        else match applyCorrection query canonical_url i (check_slashes link) with
          | none => PassOutcome.crash
          | some link3 => PassOutcome.next link3 := rfl

/-- Every run of `check_link_validity` that terminates normally partitions
the raw links: one output entry per input link. -/
lemma check_link_validity_length (validURL : String → Bool)
    (links : List String) (query : String) (canonical_url : Option String) :
    ∀ vl el, check_link_validity validURL links query canonical_url = some (vl, el) →
      vl.length + el.length = links.length := by
  induction links with
  | nil =>
    intro vl el h
    simp only [check_link_validity, Option.some.injEq, Prod.mk.injEq] at h
    obtain ⟨h1, h2⟩ := h
    subst h1; subst h2
    rfl
  | cons l rest ih =>
    intro vl el h
    rw [check_link_validity] at h
    cases hp : processLink validURL query canonical_url l with
    | none => rw [hp] at h; exact absurd h (by simp)
    | some r =>
      rw [hp] at h
      cases hr : check_link_validity validURL rest query canonical_url with
      | none => rw [hr] at h; exact absurd h (by simp)
      | some p =>
        obtain ⟨vs, es⟩ := p
        rw [hr] at h
        have hlen := ih vs es hr
        cases r with
        | inl v =>
          simp only [Option.some.injEq, Prod.mk.injEq] at h
          obtain ⟨h1, h2⟩ := h
          subst h1; subst h2
          simp only [List.length_cons, List.length]
          omega
        | inr e =>
          simp only [Option.some.injEq, Prod.mk.injEq] at h
          obtain ⟨h1, h2⟩ := h
          subst h1; subst h2
          simp only [List.length_cons, List.length]
          omega

/-! Claim C1 -/

/-- C1: evaluation of the failing input.  The spec invariant says every
raw link contributes exactly one entry to the valid-link list or the
error-record list, but on the raw-link list `["/"]` the normalizer
reads `link[1]` on a one-character link and raises an uncaught
IndexError (modelled by `none`): the run aborts and the link contributes
to neither list. -/
theorem c1_crash_eval :
    check_link_validity specValidURL ["/"] "https://q.example" none = none := rfl

/-! Claim C5 -/

/-- C5 counterexample: `validators.url` accepts
`https://e.example/a//b.png` (a duplicated slash inside the path is
legal), yet the correction pass places the slash-collapsed form — not
the original, character for character — in the valid-link list. -/
theorem c5_counterexample :
    check_link_validity specValidURL ["https://e.example/a//b.png"]
        "https://q.example" none
      = some (["https://e.example/a/b.png"], [])
    ∧ ("https://e.example/a/b.png" : String) ≠ "https://e.example/a//b.png" :=
  ⟨rfl, by decide⟩

/-- C5 amended: an already-valid URL is placed in the valid-link list
unchanged provided it contains at most one occurrence of `//`; a valid
URL with a second `//` is first rewritten by the slash pre-check and the
rewritten form is what enters the list. -/
theorem c5_amended (validURL : String → Bool) (query : String)
    (canonical_url : Option String) (link : String)
    (h1 : countPairSlash link.data ≤ 1) (h2 : validURL link = true) :
    check_link_validity validURL [link] query canonical_url
      = some ([link], []) := by
  have hs : check_slashes link = link := check_slashes_eq_self link h1
  simp [check_link_validity, processLink, passIter_eq, hs, h2]

/-- C5 amended, witness at a concrete already-valid URL with a single
`//`. -/
theorem c5_amended_witness :
    check_link_validity specValidURL ["https://e.example/a.png"]
        "https://q.example" none
      = some (["https://e.example/a.png"], []) :=
  c5_amended specValidURL "https://q.example" none "https://e.example/a.png"
    (by decide) (by decide)

/-! Claim C8 -/

/-- C8: a raw-link list containing the one-character link `/` (invalid
for `validators.url`) makes `check_link_validity` read `link[1]` in the
second correction pass and raise an uncaught IndexError, aborting the
whole run (`none`) instead of producing an error record. -/
theorem c8_index_error_aborts (validURL : String → Bool) (query : String)
    (canonical_url : Option String) (links : List String)
    (hv : validURL "/" = false) (hm : "/" ∈ links) :
    check_link_validity validURL links query canonical_url = none := by
  induction links with
  | nil => cases hm
  | cons l rest ih =>
    rcases List.mem_cons.1 hm with h1 | h2
    · subst h1
      have hp : processLink validURL query canonical_url "/" = none := by
        have h0 : passIter validURL query canonical_url 0 "/"
            = PassOutcome.next "/" := by
          rw [passIter_eq, show check_slashes "/" = "/" from rfl, hv]
          rfl
        have h1 : passIter validURL query canonical_url 1 "/"
            = PassOutcome.crash := by
          rw [passIter_eq, show check_slashes "/" = "/" from rfl, hv]
          rfl
        simp only [processLink, h0, h1]
      simp [check_link_validity, hp]
    · cases hp : processLink validURL query canonical_url l with
      | none => simp [check_link_validity, hp]
      | some r => simp [check_link_validity, hp, ih h2]

/-- C8 witness: a run whose first link is perfectly valid is still
aborted wholesale by a later `/` link. -/
theorem c8_witness :
    check_link_validity specValidURL ["https://ok.example/x.png", "/"]
        "https://q.example" none = none :=
  c8_index_error_aborts specValidURL "https://q.example" none
    ["https://ok.example/x.png", "/"] (by decide) (by decide)

/-! Claim C6 -/

/-- C6: for a link of the form `<scheme>://<rest>` (the scheme containing
neither `:` nor `/`, covering both `https://...` and, taking `rest` to
start with `/`, `https:///...`), the slash-collapsing step returns a
link that still starts with `<scheme>://` — the slash pair immediately
after the scheme colon is never collapsed to a single slash. -/
theorem c6_scheme_slash_pair (scheme s : List Char)
    (h : ∀ c ∈ scheme, c ≠ ':' ∧ c ≠ '/') :
    ∃ t, check_slashes (String.mk (scheme ++ ':' :: '/' :: '/' :: s))
      = String.mk (scheme ++ ':' :: '/' :: '/' :: t) := by
  unfold check_slashes
  by_cases hc :
      countPairSlash (String.mk (scheme ++ ':' :: '/' :: '/' :: s)).data > 1
  · rw [if_pos hc]
    refine ⟨restoreScheme (collapseSlashes (protectScheme s)), ?_⟩
    have hd : (String.mk (scheme ++ ':' :: '/' :: '/' :: s)).data
        = scheme ++ ':' :: '/' :: '/' :: s := rfl
    rw [hd, protectScheme_append scheme _ (fun c hcm => (h c hcm).1),
      protectScheme_sep]
    have e1 : scheme ++ ':' :: ':' :: protectScheme s
        = (scheme ++ [':', ':']) ++ protectScheme s := by simp
    rw [e1, collapseSlashes_append (scheme ++ [':', ':']) _ ?hslash]
    case hslash =>
      intro c hcm
      rcases List.mem_append.1 hcm with hl | hr
      · exact (h c hl).2
      · have hcc : c = ':' := by simpa using hr
        subst hcc; decide
    have e2 : (scheme ++ [':', ':']) ++ collapseSlashes (protectScheme s)
        = scheme ++ ':' :: ':' :: collapseSlashes (protectScheme s) := by simp
    rw [e2, restoreScheme_append scheme _ (fun c hcm => (h c hcm).1),
      restoreScheme_pair]
  · rw [if_neg hc]
    exact ⟨s, rfl⟩

/-- C6 witness at the triple-slash link `https:///a.png` from the spec. -/
theorem c6_witness :
    ∃ t, check_slashes (String.mk ("https".data ++ ':' :: '/' :: '/' :: "/a.png".data))
      = String.mk ("https".data ++ ':' :: '/' :: '/' :: t) :=
  c6_scheme_slash_pair "https".data "/a.png".data (by decide)

/-! Claim C3 -/

/-- Helper for C3: on a single-element list whose element contains a
space, `check_nested_links` removes the element, deletes commas, splits
on spaces and keeps exactly the tokens accepted by the validator. -/
lemma check_nested_links_single (validURL : String → Bool) (s : String)
    (hs : s.data.contains ' ' = true) :
    check_nested_links validURL [s]
      = ((splitOnSpace (removeCommas s.data)).map String.mk).filter validURL := by
  have hm : ' ' ∈ s.data := by simpa using hs
  unfold check_nested_links
  rw [if_pos (by simp [hm])]
  simp [checkNestedLoop, hs, hm]

/-- C3 counterexample: two adjacent space-containing values.  Because
`links.pop(idx)` runs while the same list is being iterated, the element
that slides into the popped slot is skipped: `"c d"` survives into the
output, so a space-containing value remains and is never split or
validated (the validator here rejects everything, matching
`validators.url` on the bare tokens involved). -/
theorem c3_counterexample :
    check_nested_links (fun _ => false) ["a b", "c d"] = ["c d"]
    ∧ ("c d" : String).data.contains ' ' = true :=
  ⟨rfl, by decide⟩

/-- C3 amended: a space-containing value that the iterator actually
reaches is removed, its commas deleted, the remainder split on spaces,
and each token re-added only if it passes URL validation — in
particular a singleton `["a.png 1x, b.png 2x"]` yields exactly
`["a.png", "b.png"]` when those two tokens pass validation and the
descriptors fail it.  However, because the element is popped out of the
list being iterated, the value immediately following a removed one is
skipped and stays in the output verbatim, so a space-containing value
can survive when two such values are adjacent. -/
theorem c3_amended :
    (∀ (validURL : String → Bool) (s : String), s.data.contains ' ' = true →
      check_nested_links validURL [s]
        = ((splitOnSpace (removeCommas s.data)).map String.mk).filter validURL)
    ∧ (∀ validURL : String → Bool,
        validURL "a.png" = true → validURL "1x" = false →
        validURL "b.png" = true → validURL "2x" = false →
        check_nested_links validURL ["a.png 1x, b.png 2x"]
          = ["a.png", "b.png"]) := by
  refine ⟨check_nested_links_single, ?_⟩
  intro v h1 h2 h3 h4
  rw [check_nested_links_single v _ (by decide)]
  have e1 : (splitOnSpace (removeCommas ("a.png 1x, b.png 2x" : String).data)).map String.mk
      = ["a.png", "1x", "b.png", "2x"] := rfl
  rw [e1]
  simp [List.filter, h1, h2, h3, h4]

/-- C3 amended, witness at the responsive-descriptor value from the
spec with a validator accepting exactly the two image tokens. -/
theorem c3_amended_witness :
    check_nested_links (fun s => s == "a.png" || s == "b.png")
        ["a.png 1x, b.png 2x"] = ["a.png", "b.png"] :=
  c3_amended.2 (fun s => s == "a.png" || s == "b.png")
    (by decide) (by decide) (by decide) (by decide)

/-! Claim C10 -/

/-- C10: when the per-image fetch fails at the transport/status level,
`get_request` returns its error list instead of a response; reading
`.content` from that list raises an AttributeError, which the
catch-all `except` clause of the downloader catches.  Exactly one error record is
appended for the link — its message the AttributeError text, not the
underlying transport error `e` — and processing continues with the
remaining links. -/
theorem c10_attr_error_recorded
    (httpGet decodeImage : String → Except String String) (idx : Nat)
    (link : String) (rest : List String) (e : String)
    (he : httpGet link = Except.error e) :
    downloadAux httpGet decodeImage idx (link :: rest)
      = ((downloadAux httpGet decodeImage (idx + 1) rest).1,
         [attrErrMsg, link] :: (downloadAux httpGet decodeImage (idx + 1) rest).2) := by
  simp [downloadAux, get_request, he]

/-- C10 witness: a single 404-ing link yields exactly one error record
carrying the AttributeError text. -/
theorem c10_witness :
    downloadAux (fun _ => Except.error "404") okDecode 1 ["https://a.example/x.png"]
      = ((downloadAux (fun _ => Except.error "404") okDecode 2 []).1,
         [attrErrMsg, "https://a.example/x.png"]
           :: (downloadAux (fun _ => Except.error "404") okDecode 2 []).2) :=
  c10_attr_error_recorded (fun _ => Except.error "404") okDecode 1
    "https://a.example/x.png" [] "404" rfl

/-! Claim C7 -/

/-- Structure of the `download_images` loop, generalised over the start
ordinal `n`: every produced entry carries the ordinal of the position
of its link, a filename of the form `IMG_<ordinal>.<format>`, and the
ordinal list is strictly increasing. -/
lemma downloadAux_spec (httpGet decodeImage : String → Except String String)
    (links : List String) : ∀ n : Nat,
    (∀ e ∈ (downloadAux httpGet decodeImage n links).1,
        n ≤ e.1 ∧ e.1 < n + links.length ∧ links.get? (e.1 - n) = some e.2.2 ∧
        ∃ body fmt, get_request httpGet e.2.2 = Sum.inl body ∧
          decodeImage body = Except.ok fmt ∧
          e.2.1 = "IMG_" ++ toString e.1 ++ "." ++ fmt) ∧
    List.Pairwise (fun a b => a < b)
      (((downloadAux httpGet decodeImage n links).1).map (fun e => e.1)) := by
  induction links with
  | nil =>
    intro n
    constructor
    · intro e he
      simp [downloadAux] at he
    · simp [downloadAux]
  | cons l rest ih =>
    intro n
    cases hg : get_request httpGet l with
    | inr errl =>
      have hd : downloadAux httpGet decodeImage n (l :: rest)
          = ((downloadAux httpGet decodeImage (n + 1) rest).1,
             [attrErrMsg, l] :: (downloadAux httpGet decodeImage (n + 1) rest).2) := by
        simp [downloadAux, hg]
      rw [hd]
      constructor
      · intro e he
        obtain ⟨h1, h2, h3, h4⟩ := (ih (n + 1)).1 e he
        refine ⟨by omega, by simp only [List.length_cons]; omega, ?_, h4⟩
        have hsub : e.1 - n = (e.1 - (n + 1)) + 1 := by omega
        rw [hsub, List.get?_cons_succ]
        exact h3
      · exact (ih (n + 1)).2
    | inl content =>
      cases hdec : decodeImage content with
      | error msg =>
        have hd : downloadAux httpGet decodeImage n (l :: rest)
            = ((downloadAux httpGet decodeImage (n + 1) rest).1,
               [msg, l] :: (downloadAux httpGet decodeImage (n + 1) rest).2) := by
          simp [downloadAux, hg, hdec]
        rw [hd]
        constructor
        · intro e he
          obtain ⟨h1, h2, h3, h4⟩ := (ih (n + 1)).1 e he
          refine ⟨by omega, by simp only [List.length_cons]; omega, ?_, h4⟩
          have hsub : e.1 - n = (e.1 - (n + 1)) + 1 := by omega
          rw [hsub, List.get?_cons_succ]
          exact h3
        · exact (ih (n + 1)).2
      | ok fmt =>
        have hd : downloadAux httpGet decodeImage n (l :: rest)
            = ((n, "IMG_" ++ toString n ++ "." ++ fmt, l)
                 :: (downloadAux httpGet decodeImage (n + 1) rest).1,
               (downloadAux httpGet decodeImage (n + 1) rest).2) := by
          simp [downloadAux, hg, hdec]
        rw [hd]
        constructor
        · intro e he
          rcases List.mem_cons.1 he with he1 | hmem
          · subst he1
            exact ⟨le_refl n, by simp only [List.length_cons]; omega,
              by simp, content, fmt, hg, hdec, rfl⟩
          · obtain ⟨h1, h2, h3, h4⟩ := (ih (n + 1)).1 e hmem
            refine ⟨by omega, by simp only [List.length_cons]; omega, ?_, h4⟩
            have hsub : e.1 - n = (e.1 - (n + 1)) + 1 := by omega
            rw [hsub, List.get?_cons_succ]
            exact h3
        · rw [List.map_cons]
          refine List.Pairwise.cons ?_ (ih (n + 1)).2
          intro a ha
          obtain ⟨e, he, hea⟩ := List.mem_map.1 ha
          have h1 := ((ih (n + 1)).1 e he).1
          omega

/-- C7 counterexample: with the first of two valid links failing its
download, the produced filename ordinal sequence is `[2]` — it does not
start at 1 as the claim states for runs where some downloads fail. -/
theorem c7_counterexample :
    producedOrdinals c7Fetch okDecode c7Links = [2]
    ∧ (producedOrdinals c7Fetch okDecode c7Links).head? ≠ some 1 :=
  ⟨rfl, by decide⟩

/-- C7 amended: each link is assigned the 1-based ordinal of its position
in the valid-link list and every produced image is named
`IMG_<ordinal>.<detected format>`; produced ordinals are unique (strictly
increasing in processing order) and lie within `1..length`, also when
some downloads fail — but after a failed first download the produced
sequence need not begin at 1. -/
theorem c7_amended (httpGet decodeImage : String → Except String String)
    (links : List String) :
    List.Pairwise (fun a b => a < b) (producedOrdinals httpGet decodeImage links)
    ∧ (∀ o ∈ producedOrdinals httpGet decodeImage links, 1 ≤ o ∧ o ≤ links.length)
    ∧ (∀ e ∈ (downloadAux httpGet decodeImage 1 links).1,
        links.get? (e.1 - 1) = some e.2.2
        ∧ ∃ body fmt, get_request httpGet e.2.2 = Sum.inl body
            ∧ decodeImage body = Except.ok fmt
            ∧ e.2.1 = "IMG_" ++ toString e.1 ++ "." ++ fmt) := by
  obtain ⟨hmem, hpw⟩ := downloadAux_spec httpGet decodeImage links 1
  refine ⟨hpw, ?_, ?_⟩
  · intro o ho
    obtain ⟨e, he, hea⟩ := List.mem_map.1 ho
    obtain ⟨h1, h2, _, _⟩ := hmem e he
    subst hea
    exact ⟨h1, by omega⟩
  · intro e he
    obtain ⟨_, _, h3, h4⟩ := hmem e he
    exact ⟨h3, h4⟩

/-- C7 amended, witness: ordinal strict monotonicity for the concrete
failing-first-link run. -/
theorem c7_amended_witness :
    List.Pairwise (fun a b => a < b) (producedOrdinals c7Fetch okDecode c7Links) :=
  (c7_amended c7Fetch okDecode c7Links).1

/-! Claim C2 -/

/-- C2 counterexample: the reported `num_raw_links` is the length of the
static raw-link list, counted before the fallback replaces it.  Here the
static parse yields 3 links, the fallback yields 6 links that all
validate, so the normalizer produces 6 valid links and 0 error records,
while the final result still reports `num_raw_links = 3 ≠ 6 + 0`. -/
theorem c2_counterexample :
    scraperCore specValidURL okGet okDecode okSave cexPlaywright6 "ts"
        "https://q.example" none cexStatic3
      = some (Sum.inr ⟨3, 6, 0, [], "IMGHUNT_ts"⟩, true)
    ∧ check_link_validity specValidURL cexPlaywright6 "https://q.example" none
        = some (cexPlaywright6, [])
    ∧ cexStatic3.length = 3 ∧ cexPlaywright6.length = 6
    ∧ (3 : Nat) ≠ 6 + 0 :=
  ⟨rfl, rfl, rfl, rfl, by decide⟩

/-- C2 amended: for every run that reaches the post-normalization
boundary without the rendering fallback replacing the raw-link list
(static count at least the threshold 5), the reported `num_raw_links`
equals the number of valid links plus the number of link-correction
error records; in fallback runs the reported count is the pre-fallback
static count, and the valid/error split instead sums to the length of
the fallback list. -/
theorem c2_amended (validURL : String → Bool)
    (httpGet decodeImage : String → Except String String)
    (saveFn : String → Except String Unit) (playwrightLinks : List String)
    (ts query : String) (canonical_url : Option String)
    (static_raw_links vl : List String) (el : List (List String))
    (res : RunResult) (b : Bool)
    (h5 : 5 ≤ static_raw_links.length)
    (hclv : check_link_validity validURL static_raw_links query canonical_url
      = some (vl, el))
    (hrun : scraperCore validURL httpGet decodeImage saveFn playwrightLinks ts
        query canonical_url static_raw_links = some (Sum.inr res, b)) :
    res.num_raw_links = vl.length + el.length ∧ b = false := by
  have hnz : ¬ (static_raw_links.length = 0) := by omega
  have hlt : decide (static_raw_links.length < 5) = false := by
    simp only [decide_eq_false_iff_not]
    omega
  simp only [scraperCore, if_neg hnz, hlt, Bool.false_eq_true, if_false, hclv,
    Option.some.injEq, Prod.mk.injEq, Sum.inr.injEq] at hrun
  obtain ⟨hres, hb⟩ := hrun
  subst hres
  subst hb
  exact ⟨(check_link_validity_length validURL static_raw_links query
    canonical_url vl el hclv).symm, rfl⟩

/-- C2 amended, witness: five static links (threshold met, fallback
bypassed), all valid, so the reported count 5 equals 5 + 0. -/
theorem c2_amended_witness :
    (⟨5, 5, 0, [], "IMGHUNT_ts"⟩ : RunResult).num_raw_links
        = cexStatic5.length + ([] : List (List String)).length
    ∧ (false : Bool) = false :=
  c2_amended specValidURL okGet okDecode okSave [] "ts" "https://q.example"
    none cexStatic5 cexStatic5 [] ⟨5, 5, 0, [], "IMGHUNT_ts"⟩ false
    (by decide) rfl rfl

/-! Claim C4 -/

/-- C4 counterexample.  First run: the static parse finds 3 links, the
fallback is invoked and returns zero links — zero raw links after both
strategies — yet the run does not return the error; it proceeds and
produces an (empty) archive.  Second run: the static parse finds zero
links and the error is returned with the fallback never attempted (flag
`false`), so the error does not coincide with "zero links after both
strategies have been attempted". -/
theorem c4_counterexample :
    scraperCore specValidURL okGet okDecode okSave [] "ts"
        "https://q.example" none ["x", "y", "z"]
      = some (Sum.inr ⟨3, 0, 0, [], "IMGHUNT_ts"⟩, true)
    ∧ scraperCore specValidURL okGet okDecode okSave cexPlaywright6 "ts"
        "https://q.example" none []
      = some (Sum.inl ["Unable to access images at https://q.example"], false) :=
  ⟨rfl, rfl⟩

/-- C4 amended: the run terminates with the `Unable to access images`
error exactly when the *static* parse yields zero raw links, in which
case the rendering fallback is never attempted; the fallback runs
exactly when the static count is between 1 and 4, and even a zero-link
fallback result does not trigger the error (the run proceeds to an
empty archive). -/
theorem c4_amended (validURL : String → Bool)
    (httpGet decodeImage : String → Except String String)
    (saveFn : String → Except String Unit) (playwrightLinks : List String)
    (ts query : String) (canonical_url : Option String)
    (static_raw_links : List String) :
    (scraperCore validURL httpGet decodeImage saveFn playwrightLinks ts
        query canonical_url static_raw_links
      = some (Sum.inl ["Unable to access images at " ++ query], false)
      ↔ static_raw_links = [])
    ∧ (∀ r b, scraperCore validURL httpGet decodeImage saveFn playwrightLinks ts
          query canonical_url static_raw_links = some (r, b) →
        (b = true ↔ (static_raw_links ≠ [] ∧ static_raw_links.length < 5))) := by
  by_cases hz : static_raw_links.length = 0
  · have hstatic : static_raw_links = [] := List.length_eq_zero.mp hz
    subst hstatic
    constructor
    · simp [scraperCore]
    · intro r b hr
      simp only [scraperCore, List.length_nil, eq_self_iff_true, if_true,
        Option.some.injEq, Prod.mk.injEq] at hr
      obtain ⟨_, hb⟩ := hr
      subst hb
      simp
  · have hne : static_raw_links ≠ [] := by
      intro hh
      exact hz (by simp [hh])
    cases hclv : check_link_validity validURL
        (if decide (static_raw_links.length < 5) = true then playwrightLinks
         else static_raw_links) query canonical_url with
    | none =>
      have hrun : scraperCore validURL httpGet decodeImage saveFn playwrightLinks
          ts query canonical_url static_raw_links = none := by
        simp only [scraperCore, if_neg hz, hclv]
      constructor
      · rw [hrun]
        simp [hne]
      · intro r b hr
        rw [hrun] at hr
        cases hr
    | some p =>
      obtain ⟨vl, el⟩ := p
      have hrun : scraperCore validURL httpGet decodeImage saveFn playwrightLinks
          ts query canonical_url static_raw_links
          = some (Sum.inr
              { num_raw_links := static_raw_links.length
                num_dl_images := (save_images saveFn
                  (download_images httpGet decodeImage vl).1).1
                num_errors := (el ++ (download_images httpGet decodeImage vl).2
                  ++ (save_images saveFn (download_images httpGet decodeImage vl).1).2).length
                error_links := el ++ (download_images httpGet decodeImage vl).2
                  ++ (save_images saveFn (download_images httpGet decodeImage vl).1).2
                filename := "IMGHUNT_" ++ ts },
              decide (static_raw_links.length < 5)) := by
        simp only [scraperCore, if_neg hz, hclv]
      constructor
      · rw [hrun]
        constructor
        · intro hh
          exact absurd (congrArg (fun o => o.map Prod.fst) hh) (by simp)
        · intro hh
          exact absurd hh hne
      · intro r b hr
        rw [hrun] at hr
        simp only [Option.some.injEq, Prod.mk.injEq] at hr
        obtain ⟨_, hb⟩ := hr
        subst hb
        simp [hne]

/-- C4 amended, witness: in the 3-static-links run the fallback flag is
true exactly because the static list is nonempty and below threshold. -/
theorem c4_amended_witness :
    ((true : Bool) = true
      ↔ ((["x", "y", "z"] : List String) ≠ []
          ∧ (["x", "y", "z"] : List String).length < 5)) :=
  (c4_amended specValidURL okGet okDecode okSave [] "ts" "https://q.example"
    none ["x", "y", "z"]).2 (Sum.inr ⟨3, 0, 0, [], "IMGHUNT_ts"⟩) true rfl

/-! Claim C9 -/

/-- Helper for C9: a protocol-relative link `//<c0><r>` whose remainder
contains a further `//` (so the total count exceeds 1) is rewritten by
the slash pre-check into a link with a single leading slash. -/
lemma check_slashes_protocol_relative (c0 : Char) (r : List Char)
    (h1 : c0 ≠ '/') (h2 : c0 ≠ ':') (h3 : 1 ≤ countPairSlash (c0 :: r)) :
    check_slashes (String.mk ('/' :: '/' :: c0 :: r))
      = String.mk ('/' :: c0 :: restoreScheme (collapseSlashes (protectScheme r))) := by
  unfold check_slashes
  have hd : (String.mk ('/' :: '/' :: c0 :: r)).data = '/' :: '/' :: c0 :: r := rfl
  rw [hd, countPairSlash_pair, if_pos (by omega)]
  rw [protectScheme_cons_ne '/' _ (by decide), protectScheme_cons_ne '/' _ (by decide),
    protectScheme_cons_ne c0 _ h2, collapseSlashes_pair,
    collapseSlashes_cons_ne c0 _ h1,
    restoreScheme_cons_ne '/' _ (by decide), restoreScheme_cons_ne c0 _ h2]

/-- Helper for C9: the slash pre-check keeps the single-slash-plus-host
shape of a root-relative link. -/
lemma check_slashes_keeps_single_slash (c0 : Char) (d : List Char)
    (h1 : c0 ≠ '/') (h2 : c0 ≠ ':') :
    ∃ d2, check_slashes (String.mk ('/' :: c0 :: d)) = String.mk ('/' :: c0 :: d2) := by
  unfold check_slashes
  have hd : (String.mk ('/' :: c0 :: d)).data = '/' :: c0 :: d := rfl
  rw [hd]
  by_cases hc : countPairSlash ('/' :: c0 :: d) > 1
  · rw [if_pos hc]
    rw [protectScheme_cons_ne '/' _ (by decide), protectScheme_cons_ne c0 _ h2,
      collapseSlashes_slash_ne c0 _ h1, collapseSlashes_cons_ne c0 _ h1,
      restoreScheme_cons_ne '/' _ (by decide), restoreScheme_cons_ne c0 _ h2]
    exact ⟨restoreScheme (collapseSlashes (protectScheme d)), rfl⟩
  · rw [if_neg hc]
    exact ⟨d, rfl⟩

/-- C9: a protocol-relative raw link `//<host>...` whose remainder
contains a further `//` has its leading `//` collapsed to a single `/`
by the slash pre-check before the protocol-relative correction of pass 0
can see it, so pass 0 does not prepend `https:`; pass 1 then treats the
link as root-relative and prepends the canonical URL if known, otherwise
the queried page URL.  The hypotheses say that the host head is an
ordinary character and that the collapsed forms seen at passes 0 and 1
are still invalid (as they are for `validators.url`, having no scheme). -/
theorem c9_collapse_then_root_relative
    (validURL : String → Bool) (query : String) (canonical_url : Option String)
    (c0 : Char) (r : List Char)
    (h1 : c0 ≠ '/') (h2 : c0 ≠ ':') (h3 : 1 ≤ countPairSlash (c0 :: r))
    (hv0 : validURL (check_slashes (String.mk ('/' :: '/' :: c0 :: r))) = false)
    (hv1 : validURL (check_slashes (check_slashes
      (String.mk ('/' :: '/' :: c0 :: r)))) = false) :
    (∃ d, check_slashes (String.mk ('/' :: '/' :: c0 :: r))
        = String.mk ('/' :: c0 :: d))
    ∧ processLink validURL query canonical_url (String.mk ('/' :: '/' :: c0 :: r))
      = (let l2 := check_slashes (baseURL query canonical_url
              ++ check_slashes (check_slashes (String.mk ('/' :: '/' :: c0 :: r))))
         if validURL l2 then some (Sum.inl l2)
         else some (Sum.inr ["First Pass - Invalid Link", l2])) := by
  have e0 := check_slashes_protocol_relative c0 r h1 h2 h3
  obtain ⟨d1, e1⟩ := check_slashes_keeps_single_slash c0
    (restoreScheme (collapseSlashes (protectScheme r))) h1 h2
  rw [e0] at hv0
  rw [e0, e1] at hv1
  refine ⟨⟨restoreScheme (collapseSlashes (protectScheme r)), e0⟩, ?_⟩
  rw [e0, e1]
  have hbeq : (('/' : Char) == c0) = false := by
    cases hbe : (('/' : Char) == c0) with
    | false => rfl
    | true => exact absurd (eq_of_beq hbe).symm h1
  have p0 : passIter validURL query canonical_url 0
      (String.mk ('/' :: '/' :: c0 :: r))
      = PassOutcome.next (String.mk ('/' :: c0 ::
          restoreScheme (collapseSlashes (protectScheme r)))) := by
    rw [passIter_eq, e0, hv0]
    simp [applyCorrection, listStartsWith, hbeq]
  have p1 : passIter validURL query canonical_url 1
      (String.mk ('/' :: c0 :: restoreScheme (collapseSlashes (protectScheme r))))
      = PassOutcome.next (baseURL query canonical_url
          ++ String.mk ('/' :: c0 :: d1)) := by
    rw [passIter_eq, e1, hv1]
    simp [applyCorrection, h1]
  simp only [processLink, p0, p1]
  rw [passIter_eq]
  simp only [applyCorrection]
  cases hb : validURL (check_slashes (baseURL query canonical_url
      ++ String.mk ('/' :: c0 :: d1))) with
  | true => simp [hb]
  | false => simp [hb]

/-- C9 witness at the link `//host/a//b` from the claim, with no
canonical URL: the link is collapsed to `/host/a/b`, never receives an
`https:` prefix, and is resolved against the queried page URL. -/
theorem c9_witness :
    (∃ d, check_slashes (String.mk ('/' :: '/' :: 'h' :: "ost/a//b".data))
        = String.mk ('/' :: 'h' :: d))
    ∧ processLink specValidURL "https://q.example" none
        (String.mk ('/' :: '/' :: 'h' :: "ost/a//b".data))
      = (let l2 := check_slashes (baseURL "https://q.example" none
              ++ check_slashes (check_slashes
                  (String.mk ('/' :: '/' :: 'h' :: "ost/a//b".data))))
         if specValidURL l2 then some (Sum.inl l2)
         else some (Sum.inr ["First Pass - Invalid Link", l2])) :=
  c9_collapse_then_root_relative specValidURL "https://q.example" none 'h'
    "ost/a//b".data (by decide) (by decide) (by decide) (by decide) (by decide)

end ImgHunt
